import Mathlib

/-!
# Flashcard study-session controller (`src/App.jsx`)

A shallow embedding of the React component `App`: its `useState` cells become
the fields of `State`, every event handler becomes a function on `State`, and
the JSX decides which handler an event can reach (`offered`).

Conventions of the embedding:

* A handler runs to completion inside one event, and every `setX` it issues is
  applied when it returns; the closure values it reads are the state of the
  render that installed it. A handler is therefore a function `State → State`.
* `await axios.get(...)` is the only source of outside data. Its result is an
  explicit argument of type `FetchOutcome`. While a request is pending the
  component renders the loading screen, which has no control, so a fetching
  handler is one atomic step.
* `Math.random` only feeds the comparator of `Array.prototype.sort`. The
  sorted copy is an explicit argument `shuffled`; the engine returns some
  rearrangement of the copied array, which is the hypothesis
  `shuffled.Perm availableCards` wherever it matters.
* Strings from the server are `String`; `null` is `none`.
-/

namespace App

/-! ## Data model -/

/-- A card as delivered by the remote source. -/
structure Card where
  _id : String
  subject : String
  question : String
  choices : List String
  answer : String
deriving DecidableEq, Repr

/-- The four values the `view` cell takes. -/
inductive View where
  | home
  | study
  | complete
  | setup
deriving DecidableEq, Repr

/-- An entry of `subjects`: `{ name, count }`. -/
structure SubjectSummary where
  name : String
  count : Nat
deriving DecidableEq, Repr

/-- The `sessionStats` object. -/
structure SessionStats where
  correct : Nat
  incorrect : Nat
  total : Nat
deriving DecidableEq, Repr

/-- All `useState` cells of `App`, in declaration order. -/
structure State where
  view : View
  subjects : List SubjectSummary
  loading : Bool
  error : Option String
  selectedSubject : String
  cardLimit : Int
  availableCards : List Card
  currentSubject : String
  cards : List Card
  currentCardIndex : Nat
  selectedChoice : String
  showResult : Bool
  sessionStats : SessionStats
  againCards : List Card
deriving DecidableEq, Repr

/-- The initial values passed to `useState`. -/
def initialState : State :=
  { view := View.home
    subjects := []
    loading := true
    error := none
    selectedSubject := ""
    cardLimit := 20
    availableCards := []
    currentSubject := ""
    cards := []
    currentCardIndex := 0
    selectedChoice := ""
    showResult := false
    sessionStats := { correct := 0, incorrect := 0, total := 0 }
    againCards := [] }

/-! ## JavaScript primitives used by the component -/

/-- The value of `m || d` for a string-or-missing `m`: the empty string and a
missing value are falsy. -/
def orElse : Option String → String → String
  | some t, d => if t = "" then d else t
  | none, d => d

/-- Truthiness of a string-or-null cell such as `error`. -/
def truthy : Option String → Bool
  | some t => t != ""
  | none => false

/-- The value of `xs.slice(0, end)` for an integer `end`: a negative `end`
counts from the back of the array, and both bounds are clipped to the array. -/
def sliceFromStart {α : Type} (xs : List α) (final : Int) : List α :=
  if final < 0 then xs.take (Int.toNat ((xs.length : Int) + final))
  else xs.take (Int.toNat final)

/-- Characters `parseInt` skips at the front of its argument (the white space
and line terminators of the language). -/
def isStrWhiteSpace (c : Char) : Bool :=
  [9, 10, 11, 12, 13, 32, 160, 5760, 8232, 8233, 8239, 8287, 12288, 65279].contains c.toNat
    || (8192 ≤ c.toNat && c.toNat ≤ 8202)

/-- The value of a digit in the given radix, when the character is one. -/
def digitValue (radix : Nat) (c : Char) : Option Nat :=
  let v : Option Nat :=
    if '0' ≤ c ∧ c ≤ '9' then some (c.toNat - '0'.toNat)
    else if 'a' ≤ c ∧ c ≤ 'z' then some (c.toNat - 'a'.toNat + 10)
    else if 'A' ≤ c ∧ c ≤ 'Z' then some (c.toNat - 'A'.toNat + 10)
    else none
  v.bind fun d => if d < radix then some d else none

/-- Reads the longest run of digits at the front of `cs`; `none` when the run
is empty. `acc` carries the value read so far once a digit has been seen. -/
def readDigits (radix : Nat) : List Char → Option Nat → Option Nat
  | [], acc => acc
  | c :: cs, acc =>
    match digitValue radix c with
    | some d => readDigits radix cs (some (acc.getD 0 * radix + d))
    | none => acc

/-- The value of `parseInt(text)` with no radix argument; `none` stands for
`NaN`. The integer is kept exact: the engine rounds a result beyond `2^53` to
a double (or an infinity), which is monotone and leaves every smaller integer
alone, so a later clamp to an array length cannot tell the difference. -/
def parseInt (text : String) : Option Int :=
  let s := text.toList.dropWhile isStrWhiteSpace
  let negative := s.head? == some '-'
  let s := if s.head? == some '-' || s.head? == some '+' then s.drop 1 else s
  let hex := s.take 2 == ['0', 'x'] || s.take 2 == ['0', 'X']
  let s := if hex then s.drop 2 else s
  match readDigits (if hex then 16 else 10) s none with
  | none => none
  | some n => some (if negative then -(n : Int) else (n : Int))

/-- The value of `v || 1` for a `parseInt` result: `NaN` and zero are falsy. -/
def orOne : Option Int → Int
  | some v => if v = 0 then 1 else v
  | none => 1

/-- Exact-arithmetic reading of `Math.round((correct / total) * 100)`, the
accuracy shown on the completion screen (`Math.round x` is `⌊x + 1/2⌋`). The
source computes in doubles, so the two differ where the exact value is a
half-integer that the doubles miss (23 of 40 is 58 here and 57 on the page),
and for `total = 0` the source computes `NaN` while the division here yields
0. The only value used below is 2 of 3, where both give 67. -/
def accuracy (st : SessionStats) : Int :=
  ⌊((st.correct : ℚ) / (st.total : ℚ)) * 100 + 1 / 2⌋

/-! ## The remote card source -/

/-- What `await axios.get(url)` produced. `fulfilled` is a response body
`{ success, data, message }`; `rejected` is a thrown error, with
`err.response?.data?.message` and `err.message`. -/
inductive FetchOutcome where
  | fulfilled (success : Bool) (data : List Card) (message : Option String)
  | rejected (responseMessage : Option String) (message : Option String)
deriving DecidableEq, Repr

/-- One step of the `forEach` that counts cards per subject, as an association
list in insertion order. The source counts in a plain object, which differs
for some subject names: names that look like array indices are listed first,
and a name such as `__proto__` that meets an inherited property gets no
proper entry. The list is only used to decide which subject buttons the home
view shows; an entry more only adds reachable states. -/
def countSubject : List SubjectSummary → String → List SubjectSummary
  | [], subject => [{ name := subject, count := 1 }]
  | e :: rest, subject =>
    if e.name = subject then { e with count := e.count + 1 } :: rest
    else e :: countSubject rest subject

/-- The array `subjectsArray` built from all cards. -/
def subjectCounts (allCards : List Card) : List SubjectSummary :=
  allCards.foldl (fun counts card => countSubject counts card.subject) []

/-- Handler `fetchAllCards`, with the outcome of its request. -/
def fetchAllCards (s : State) (o : FetchOutcome) : State :=
  match o with
  | .fulfilled true data _ =>
    { s with loading := false, error := none, subjects := subjectCounts data }
  | .fulfilled false _ message =>
    { s with loading := false, error := some (orElse message "Failed to fetch cards") }
  | .rejected responseMessage message =>
    { s with loading := false
             error := some (orElse responseMessage (orElse message "Failed to load cards")) }

/-- Handler `fetchCardsBySubject`: the state after its `finally` block and the
array it returns (empty on any failure). -/
def fetchCardsBySubject (s : State) (_subject : String) (o : FetchOutcome) : State × List Card :=
  match o with
  | .fulfilled true data _ => ({ s with loading := false, error := none }, data)
  | .fulfilled false _ message =>
    ({ s with loading := false
              error := some (orElse message "Failed to fetch cards for subject") }, [])
  | .rejected responseMessage message =>
    ({ s with loading := false
              error := some (orElse responseMessage
                (orElse message "Failed to load cards for this subject")) }, [])

/-! ## Event handlers -/

/-- Handler `setupStudySession`. -/
def setupStudySession (s : State) (subject : String) (o : FetchOutcome) : State :=
  let r := fetchCardsBySubject s subject o
  let subjectCards := r.2
  if subjectCards.length = 0 then
    { r.1 with error := some ("No cards found for subject: " ++ subject) }
  else
    { r.1 with selectedSubject := subject
               availableCards := subjectCards
               cardLimit := min 20 (subjectCards.length : Int)
               view := View.setup }

/-- Handler `startStudySession`; `shuffled` is the sorted copy of
`availableCards`. -/
def startStudySession (s : State) (shuffled : List Card) : State :=
  if s.availableCards.length = 0 then s
  else
    let sessionCards := sliceFromStart shuffled s.cardLimit
    { s with currentSubject := s.selectedSubject
             cards := sessionCards
             currentCardIndex := 0
             selectedChoice := ""
             showResult := false
             sessionStats := { correct := 0, incorrect := 0, total := sessionCards.length }
             againCards := []
             view := View.study }

/-- Handler `selectChoice`. -/
def selectChoice (s : State) (choice : String) : State :=
  if s.showResult then s else { s with selectedChoice := choice }

/-- Handler `submitAnswer`. `none` is the `TypeError` raised by
`currentCard.answer` when `cards[currentCardIndex]` is `undefined`. -/
def submitAnswer (s : State) : Option State :=
  if s.selectedChoice = "" then some s
  else
    match s.cards[s.currentCardIndex]? with
    | none => none
    | some currentCard =>
      if s.selectedChoice = currentCard.answer then
        some { s with showResult := true
                      sessionStats := { s.sessionStats with correct := s.sessionStats.correct + 1 } }
      else if (s.againCards.find? fun card => card._id == currentCard._id).isNone then
        some { s with showResult := true
                      sessionStats :=
                        { s.sessionStats with incorrect := s.sessionStats.incorrect + 1 }
                      againCards := s.againCards ++ [currentCard] }
      else
        some { s with showResult := true
                      sessionStats :=
                        { s.sessionStats with incorrect := s.sessionStats.incorrect + 1 } }

/-- Handler `nextCard`. -/
def nextCard (s : State) : State :=
  if (s.currentCardIndex : Int) < (s.cards.length : Int) - 1 then
    { s with currentCardIndex := s.currentCardIndex + 1
             selectedChoice := ""
             showResult := false }
  else { s with view := View.complete }

/-- Handler `studyAgainCards`. -/
def studyAgainCards (s : State) : State :=
  if s.againCards.length > 0 then
    { s with cards := s.againCards
             currentCardIndex := 0
             selectedChoice := ""
             showResult := false
             sessionStats := { correct := 0, incorrect := 0, total := s.againCards.length }
             againCards := []
             view := View.study }
  else s

/-- Handler `restartSession`. -/
def restartSession (s : State) (shuffled : List Card) : State :=
  startStudySession s shuffled

/-- Handler `goHome`, with the outcome of the refresh it starts. -/
def goHome (s : State) (o : FetchOutcome) : State :=
  fetchAllCards
    { s with view := View.home
             currentSubject := ""
             selectedSubject := ""
             cards := []
             availableCards := []
             currentCardIndex := 0
             selectedChoice := ""
             showResult := false
             sessionStats := { correct := 0, incorrect := 0, total := 0 }
             againCards := []
             cardLimit := 20 } o

/-- Handler `goBackToHome`. -/
def goBackToHome (s : State) : State :=
  { s with view := View.home, selectedSubject := "", availableCards := [], cardLimit := 20 }

/-- The state setter `setCardLimit`, as the limit buttons call it. -/
def setCardLimit (s : State) (n : Int) : State :=
  { s with cardLimit := n }

/-- The `onChange` handler of the custom-limit input; `text` is
`e.target.value`. -/
def customLimitOnChange (s : State) (text : String) : State :=
  let value := orOne (parseInt text)
  setCardLimit s (min (max value 1) (s.availableCards.length : Int))

/-- The constant `limitOptions`. -/
def limitOptions : List Nat := [5, 10, 15, 20, 25, 30, 50]

/-- The preset buttons the setup view renders:
`limitOptions.filter(option => option <= availableCards.length)`. -/
def offeredLimitOptions (s : State) : List Nat :=
  limitOptions.filter fun option => option ≤ s.availableCards.length

/-- Whether the setup view renders the `All (n)` button. -/
def allButtonOffered (s : State) : Bool :=
  !limitOptions.contains s.availableCards.length && s.availableCards.length ≤ 100

/-- The constant `currentCard`: `cards[currentCardIndex]`. -/
def currentCard (s : State) : Option Card :=
  s.cards[s.currentCardIndex]?

/-! ## The rendered view: which handler an event can reach -/

/-- An event of the component together with the outside data its handler
consumes. -/
inductive Action where
  | fetchAllCards (o : FetchOutcome)
  | setupStudySession (subject : String) (o : FetchOutcome)
  | goBackToHome
  | limitOption (option : Nat)
  | limitAll
  | customLimit (text : String)
  | startStudySession (shuffled : List Card)
  | selectChoice (choice : String)
  | submitAnswer
  | nextCard
  | studyAgainCards
  | restartSession (shuffled : List Card)
  | goHome (o : FetchOutcome)
deriving DecidableEq, Repr

/-- The handler behind each event, run without regard to what is rendered. -/
def handle (s : State) : Action → Option State
  | .fetchAllCards o => some (fetchAllCards s o)
  | .setupStudySession subject o => some (setupStudySession s subject o)
  | .goBackToHome => some (goBackToHome s)
  | .limitOption option => some (setCardLimit s (option : Int))
  | .limitAll => some (setCardLimit s (s.availableCards.length : Int))
  | .customLimit text => some (customLimitOnChange s text)
  | .startStudySession shuffled => some (startStudySession s shuffled)
  | .selectChoice choice => some (selectChoice s choice)
  | .submitAnswer => submitAnswer s
  | .nextCard => some (nextCard s)
  | .studyAgainCards => some (studyAgainCards s)
  | .restartSession shuffled => some (restartSession s shuffled)
  | .goHome o => some (goHome s o)

/-- Whether the JSX rendered for `s` contains an enabled control wired to the
event (for `fetchAllCards`: the request started on mount is pending, or the
`Try Again` or `Refresh` button is shown). The loading screen and the error
screen replace the home view; the study view is rendered only when
`currentCard` is defined; `Submit Answer` is rendered while `showResult` is
false and disabled while `selectedChoice` is empty; the `Next`/`Complete`
button takes its place once `showResult` is true. -/
def offered (s : State) : Action → Bool
  | .fetchAllCards _ =>
    s.view == View.home && (s.loading || truthy s.error || s.subjects.length == 0)
  | .setupStudySession subject _ =>
    s.view == View.home && !s.loading && !truthy s.error
      && s.subjects.any fun e => e.name == subject
  | .goBackToHome => s.view == View.setup
  | .limitOption option => s.view == View.setup && (offeredLimitOptions s).contains option
  | .limitAll => s.view == View.setup && allButtonOffered s
  | .customLimit _ => s.view == View.setup
  | .startStudySession shuffled =>
    s.view == View.setup && decide (shuffled.Perm s.availableCards)
  | .selectChoice choice =>
    s.view == View.study
      && match currentCard s with
         | some card => card.choices.contains choice
         | none => false
  | .submitAnswer =>
    s.view == View.study && (currentCard s).isSome && !s.showResult && s.selectedChoice != ""
  | .nextCard => s.view == View.study && (currentCard s).isSome && s.showResult
  | .studyAgainCards => s.view == View.complete && decide (s.againCards.length > 0)
  | .restartSession shuffled =>
    s.view == View.complete && decide (shuffled.Perm s.availableCards)
  | .goHome _ => (s.view == View.study && (currentCard s).isSome) || s.view == View.complete

/-- One event issued through the rendered view: `none` when the view offers no
such control (or the handler throws). -/
def uiStep (s : State) (a : Action) : Option State :=
  if offered s a then handle s a else none

/-- A sequence of handler calls, made directly. -/
def runCalls (s : State) : List Action → Option State
  | [] => some s
  | a :: rest => (handle s a).bind fun t => runCalls t rest

/-- A sequence of events issued through the rendered view. -/
def runUI (s : State) : List Action → Option State
  | [] => some s
  | a :: rest => (uiStep s a).bind fun t => runUI t rest

/-- States the running component can be in: the initial render, followed by
events the rendered view offers. -/
inductive Reachable : State → Prop where
  | init : Reachable initialState
  | step {s t : State} (a : Action) : Reachable s → uiStep s a = some t → Reachable t

/-- The number of `submitAnswer` events in a sequence. -/
def submitCount : List Action → Nat
  | [] => 0
  | Action.submitAnswer :: rest => submitCount rest + 1
  | _ :: rest => submitCount rest

/-- No two cards of the list share an `_id`. -/
def distinctIds (cs : List Card) : Prop :=
  (cs.map Card._id).Nodup

instance (cs : List Card) : Decidable (distinctIds cs) := by
  unfold distinctIds; infer_instance

/-- The session bookkeeping the rendered view maintains: `total` is the number
of session cards, every card before the current one has been answered once,
the current one at most once (exactly when its result is shown), and the
completion screen is entered from the last card with its result shown. -/
def SessionInv (s : State) : Prop :=
  s.sessionStats.total = s.cards.length
    ∧ s.sessionStats.correct + s.sessionStats.incorrect
        = s.currentCardIndex + (if s.showResult then 1 else 0)
    ∧ s.currentCardIndex + (if s.showResult then 1 else 0) ≤ s.cards.length
    ∧ (s.view = View.complete →
        s.currentCardIndex + 1 = s.cards.length ∧ s.showResult = true)

/-- What the component maintains about the stored limit: it is at least 1, and
on the setup view there are available cards and the limit does not exceed
their number. -/
def LimitInv (s : State) : Prop :=
  1 ≤ s.cardLimit
    ∧ (s.view = View.setup →
        s.availableCards ≠ [] ∧ s.cardLimit ≤ (s.availableCards.length : Int))

/-- The precondition of a submission: a current card exists, its result is not
shown yet, and a choice is selected. -/
def submitReady (s : State) : Bool :=
  (currentCard s).isSome && !s.showResult && s.selectedChoice != ""

/-- One direct handler call in which `submitAnswer` is only called when
`submitReady` holds; every other handler is called without any condition. -/
def sessionCall (s : State) (a : Action) : Option State :=
  match a with
  | Action.submitAnswer => if submitReady s then submitAnswer s else none
  | b => handle s b

/-- A sequence of direct handler calls whose submissions all meet
`submitReady`. -/
def runSession (s : State) : List Action → Option State
  | [] => some s
  | a :: rest => (sessionCall s a).bind fun t => runSession t rest

/-- Bookkeeping that survives direct `selectChoice` and `nextCard` calls: `total`
is the number of session cards, and the answers counted so far do not exceed
the position in the session, which does not exceed the number of cards. -/
def CountInv (s : State) : Prop :=
  s.sessionStats.total = s.cards.length
    ∧ s.sessionStats.correct + s.sessionStats.incorrect
        ≤ s.currentCardIndex + (if s.showResult then 1 else 0)
    ∧ s.currentCardIndex + (if s.showResult then 1 else 0) ≤ s.cards.length

/-- The three events of a running session. -/
def isSessionAction : Action → Bool
  | .selectChoice _ => true
  | .submitAnswer => true
  | .nextCard => true
  | _ => false

/-! ## Sample data -/

/-- A card of subject `Math`. -/
def mathCard1 : Card :=
  { _id := "m1", subject := "Math", question := "2 + 2", choices := ["3", "4", "5"], answer := "4" }

/-- A second card of subject `Math`. -/
def mathCard2 : Card :=
  { _id := "m2", subject := "Math", question := "3 + 3", choices := ["6", "7"], answer := "6" }

/-- A third card of subject `Math`. -/
def mathCard3 : Card :=
  { _id := "m3", subject := "Math", question := "1 + 1", choices := ["0", "2"], answer := "2" }

/-- A successful response carrying the three `Math` cards. -/
def mathResponse : FetchOutcome :=
  FetchOutcome.fulfilled true [mathCard1, mathCard2, mathCard3] none

/-- The home view once the request started on mount has delivered the cards. -/
def mathHome : State :=
  fetchAllCards initialState mathResponse

/-- The setup view after `Math` is selected. -/
def mathSetup : State :=
  setupStudySession mathHome "Math" mathResponse

/-- A session over the three `Math` cards in the order 2, 1, 3. -/
def mathSession : State :=
  startStudySession mathSetup [mathCard2, mathCard1, mathCard3]

/-- The setup view with the limit lowered to two of the three cards. -/
def limitedSetup : State :=
  setCardLimit mathSetup 2

/-- A response whose success flag is false, with a message from the server. -/
def failedResponse : FetchOutcome :=
  FetchOutcome.fulfilled false [] (some "Database unavailable")

/-- The setup view for a subject with a single card. -/
def singleSetup : State :=
  setupStudySession mathHome "Math" (FetchOutcome.fulfilled true [mathCard1] none)

/-- A session over one card. -/
def singleSession : State :=
  startStudySession singleSetup [mathCard1]

/-- The completion screen of `mathSession` after a wrong answer on its first two
cards and the right answer on the third. -/
def missedTwo : State :=
  (runUI mathSession
    [Action.selectChoice "7", Action.submitAnswer, Action.nextCard,
     Action.selectChoice "3", Action.submitAnswer, Action.nextCard,
     Action.selectChoice "2", Action.submitAnswer, Action.nextCard]).getD initialState

/-- The nine session events behind `missedTwo`. -/
def missedTwoSessionEvents : List Action :=
  [Action.selectChoice "7", Action.submitAnswer, Action.nextCard,
   Action.selectChoice "3", Action.submitAnswer, Action.nextCard,
   Action.selectChoice "2", Action.submitAnswer, Action.nextCard]

/-- The calls of the three-card scenario: the right answer on the first card,
the choice `w` on the second, the right answer on the third, each submitted
and followed by `nextCard`. -/
def scenarioEvents (c1 c3 : Card) (w : String) : List Action :=
  [Action.selectChoice c1.answer, Action.submitAnswer, Action.nextCard,
   Action.selectChoice w, Action.submitAnswer, Action.nextCard,
   Action.selectChoice c3.answer, Action.submitAnswer, Action.nextCard]

/-- The events that lead from the initial render to `missedTwo`. -/
def missedTwoEvents : List Action :=
  [Action.fetchAllCards mathResponse, Action.setupStudySession "Math" mathResponse,
   Action.startStudySession [mathCard2, mathCard1, mathCard3],
   Action.selectChoice "7", Action.submitAnswer, Action.nextCard,
   Action.selectChoice "3", Action.submitAnswer, Action.nextCard,
   Action.selectChoice "2", Action.submitAnswer, Action.nextCard]

/-- The state before the last event of `missedTwoEvents`: the third card is
answered and its result is shown. -/
def lastAnswered : State :=
  (runUI initialState missedTwoEvents.dropLast).getD initialState

/-- Handler calls from the initial state that submit the wrong choice `7` twice
on the first card of the three-card session. -/
def submitTwiceCalls : List Action :=
  [Action.fetchAllCards mathResponse, Action.setupStudySession "Math" mathResponse,
   Action.startStudySession [mathCard2, mathCard1, mathCard3],
   Action.selectChoice "7", Action.submitAnswer, Action.submitAnswer]

/-- The state after `submitTwiceCalls`. -/
def submittedTwice : State :=
  (runCalls initialState submitTwiceCalls).getD initialState

/-- Direct calls on the three-card session that the view would not all offer:
the first card is skipped without an answer, and `none` is not a choice
listed on the second card. -/
def skippingCalls : List Action :=
  [Action.nextCard, Action.selectChoice "none", Action.submitAnswer, Action.nextCard,
   Action.selectChoice "2", Action.submitAnswer, Action.nextCard]

/-- The state after `skippingCalls` on `mathSession`. -/
def skippedFirst : State :=
  (runSession mathSession skippingCalls).getD initialState

/-- The text of `mantissa · 10 ^ exponent` in exponent notation, which a number
input accepts: `exponentText 1 1` is `1e1`. -/
def exponentText (mantissa exponent : Nat) : String :=
  toString mantissa ++ "e" ++ toString exponent

/-- The number that `exponentText mantissa exponent` stands for. -/
def exponentValue (mantissa exponent : Nat) : Nat :=
  mantissa * 10 ^ exponent

/-- The three-card setup view with the stored limit set to `-1`. -/
def negativeLimitSetup : State :=
  setCardLimit mathSetup (-1)

/-- The state `missedTwo` with the stored limit lowered to one. -/
def missedTwoLimitOne : State :=
  setCardLimit missedTwo 1

/-- The session `mathSession` after `7` was selected and submitted on its first
card. -/
def answeredFirst : State :=
  (runUI mathSession [Action.selectChoice "7", Action.submitAnswer]).getD initialState

/-! ## Lemmas on the primitives -/

theorem sliceFromStart_sublist {α : Type} (xs : List α) (final : Int) :
    (sliceFromStart xs final).Sublist xs := by
  unfold sliceFromStart
  split <;> exact List.take_sublist _ _

theorem sliceFromStart_length_le {α : Type} (xs : List α) (final : Int) (h : 0 ≤ final) :
    ((sliceFromStart xs final).length : Int) ≤ final := by
  unfold sliceFromStart
  rw [if_neg (by omega)]
  have h1 : (xs.take final.toNat).length ≤ final.toNat := List.length_take_le _ _
  omega

theorem orOne_clamp (p : Option Int) (n : Nat) (h : 1 ≤ n) :
    1 ≤ min (max (orOne p) 1) (n : Int) ∧ min (max (orOne p) 1) (n : Int) ≤ n := by
  constructor
  · exact le_min (le_max_right _ _) (by exact_mod_cast h)
  · exact min_le_right _ _

/-! ## Session start (C3) -/

/-- C3, as stated, fails for a negative limit: with three available cards and
`cardLimit = -1`, `slice(0, -1)` keeps the first two shuffled cards, and two
is more than `-1`. -/
theorem startStudySession_negative_limit_counterexample :
    negativeLimitSetup.availableCards ≠ []
      ∧ distinctIds negativeLimitSetup.availableCards
      ∧ [mathCard2, mathCard1, mathCard3].Perm negativeLimitSetup.availableCards
      ∧ negativeLimitSetup.cardLimit = -1
      ∧ (startStudySession negativeLimitSetup [mathCard2, mathCard1, mathCard3]).cards
          = [mathCard2, mathCard1]
      ∧ ¬ (((startStudySession negativeLimitSetup
              [mathCard2, mathCard1, mathCard3]).cards.length : Int)
            ≤ negativeLimitSetup.cardLimit) := by
  decide

/-- C3, amended. For a non-empty `availableCards` with pairwise distinct ids,
any rearrangement `shuffled` the sort may return and every integer
`cardLimit`, the `cards` of the session `startStudySession` builds have no
duplicate id and every card (hence every id) of it comes from
`availableCards`; their number is at most `cardLimit` whenever `cardLimit` is
not negative. -/
theorem startStudySession_cards (s : State) (shuffled : List Card)
    (hne : s.availableCards ≠ []) (hids : distinctIds s.availableCards)
    (hperm : shuffled.Perm s.availableCards) :
    (0 ≤ s.cardLimit →
        ((startStudySession s shuffled).cards.length : Int) ≤ s.cardLimit)
      ∧ distinctIds (startStudySession s shuffled).cards
      ∧ (∀ c ∈ (startStudySession s shuffled).cards, c ∈ s.availableCards)
      ∧ (∀ i ∈ (startStudySession s shuffled).cards.map Card._id,
          i ∈ s.availableCards.map Card._id) := by
  have hlen : ¬ s.availableCards.length = 0 := by
    intro h
    exact hne (List.length_eq_zero.mp h)
  have hcards : (startStudySession s shuffled).cards = sliceFromStart shuffled s.cardLimit := by
    simp [startStudySession, hlen]
  rw [hcards]
  have hsub := sliceFromStart_sublist shuffled s.cardLimit
  have hmem : ∀ c ∈ sliceFromStart shuffled s.cardLimit, c ∈ s.availableCards :=
    fun c hc => hperm.subset (hsub.subset hc)
  refine ⟨fun h => sliceFromStart_length_le _ _ h, ?_, hmem, ?_⟩
  · unfold distinctIds at *
    have hshuf : (shuffled.map Card._id).Nodup := (hperm.map Card._id).nodup_iff.mpr hids
    exact hshuf.sublist (hsub.map Card._id)
  · intro i hi
    obtain ⟨c, hc, rfl⟩ := List.mem_map.mp hi
    exact List.mem_map.mpr ⟨c, hmem c hc, rfl⟩

/-- Witness for C3, amended: three cards, a limit of two, shuffled order 2, 1,
3. -/
theorem startStudySession_cards_witness :
    ((startStudySession limitedSetup [mathCard2, mathCard1, mathCard3]).cards.length : Int)
        ≤ limitedSetup.cardLimit
      ∧ distinctIds (startStudySession limitedSetup [mathCard2, mathCard1, mathCard3]).cards
      ∧ (startStudySession limitedSetup [mathCard2, mathCard1, mathCard3]).cards
          = [mathCard2, mathCard1] :=
  ⟨(startStudySession_cards limitedSetup [mathCard2, mathCard1, mathCard3]
      (by decide) (by decide) (by decide)).1 (by decide),
   (startStudySession_cards limitedSetup [mathCard2, mathCard1, mathCard3]
      (by decide) (by decide) (by decide)).2.1,
   by decide⟩

/-! ## The card limit (C9) -/

/-- C9, as stated, fails for a text in exponent notation: with three available
cards the text `1e1`, which stands for ten, is read by `parseInt` as 1, so the
limit stored is 1 and not the number of available cards. -/
theorem cardLimit_exponent_counterexample :
    mathSetup.availableCards.length = 3
      ∧ exponentText 1 1 = "1e1"
      ∧ mathSetup.availableCards.length < exponentValue 1 1
      ∧ parseInt (exponentText 1 1) = some 1
      ∧ (customLimitOnChange mathSetup (exponentText 1 1)).cardLimit = 1
      ∧ (customLimitOnChange mathSetup (exponentText 1 1)).cardLimit
          ≠ (mathSetup.availableCards.length : Int) := by
  decide

/-- C9, amended. With at least one available card, the limit stored by the
custom-limit input lies in `[1, availableCards.length]` for every text typed,
and so does the limit stored by every preset button the setup view renders
and by the `All` button when it is rendered. Text `0` stores 1, and any text
that `parseInt` reads as an integer at or above the number of available cards
stores that number. -/
theorem cardLimit_in_range (s : State) (h : 1 ≤ s.availableCards.length) :
    (∀ text : String,
        1 ≤ (customLimitOnChange s text).cardLimit
          ∧ (customLimitOnChange s text).cardLimit ≤ s.availableCards.length)
      ∧ (∀ option ∈ offeredLimitOptions s,
          1 ≤ (setCardLimit s (option : Int)).cardLimit
            ∧ (setCardLimit s (option : Int)).cardLimit ≤ s.availableCards.length)
      ∧ (allButtonOffered s = true →
          1 ≤ (setCardLimit s (s.availableCards.length : Int)).cardLimit
            ∧ (setCardLimit s (s.availableCards.length : Int)).cardLimit
                ≤ s.availableCards.length)
      ∧ (customLimitOnChange s "0").cardLimit = 1
      ∧ (∀ (text : String) (v : Int), parseInt text = some v →
          (s.availableCards.length : Int) ≤ v →
          (customLimitOnChange s text).cardLimit = s.availableCards.length) := by
  refine ⟨fun text => ?_, fun option hopt => ?_, fun _ => ?_, ?_, fun text v hv hgt => ?_⟩
  · exact orOne_clamp (parseInt text) _ h
  · simp only [offeredLimitOptions, limitOptions, List.mem_filter, decide_eq_true_eq] at hopt
    obtain ⟨hmem, hle⟩ := hopt
    simp only [List.mem_cons, List.mem_singleton, List.not_mem_nil, or_false] at hmem
    simp only [setCardLimit]
    omega
  · simp only [setCardLimit]
    omega
  · have hp : parseInt "0" = some 0 := by decide
    simp only [customLimitOnChange, setCardLimit, hp, orOne]
    simp
    omega
  · have hv0 : v ≠ 0 := by omega
    simp only [customLimitOnChange, setCardLimit, hv, orOne, if_neg hv0]
    rw [max_eq_left (by omega), min_eq_right (by omega)]

/-- Witness for C9, amended, on the three-card setup view: texts `0`, `-5`,
`abc`, `2`, `999` and `3.5`, and the `All` button. -/
theorem cardLimit_in_range_witness :
    (customLimitOnChange mathSetup "0").cardLimit = 1
      ∧ (customLimitOnChange mathSetup "-5").cardLimit = 1
      ∧ (customLimitOnChange mathSetup "abc").cardLimit = 1
      ∧ (customLimitOnChange mathSetup "2").cardLimit = 2
      ∧ (customLimitOnChange mathSetup "999").cardLimit = 3
      ∧ (customLimitOnChange mathSetup "3.5").cardLimit = 3
      ∧ (1 ≤ (setCardLimit mathSetup (mathSetup.availableCards.length : Int)).cardLimit
          ∧ (setCardLimit mathSetup (mathSetup.availableCards.length : Int)).cardLimit
              ≤ mathSetup.availableCards.length) :=
  ⟨(cardLimit_in_range mathSetup (by decide)).2.2.2.1, by decide, by decide, by decide,
   (cardLimit_in_range mathSetup (by decide)).2.2.2.2 "999" 999 (by decide) (by decide),
   (cardLimit_in_range mathSetup (by decide)).2.2.2.2 "3.5" 3 (by decide) (by decide),
   (cardLimit_in_range mathSetup (by decide)).2.2.1 (by decide)⟩

/-! ## Studying the missed cards (C8) -/

/-- C8. With no missed card `studyAgainCards` returns the state it was given.
Otherwise the new session holds exactly the old `againCards`, in their order
and whatever `cardLimit` is, starts at index 0 with no selection and no result
shown, has statistics `0, 0, againCards.length`, an empty `againCards`, and
the view `study`. -/
theorem studyAgainCards_spec (s : State) :
    (s.againCards = [] → studyAgainCards s = s)
      ∧ (s.againCards ≠ [] →
          (studyAgainCards s).cards = s.againCards
            ∧ (studyAgainCards s).currentCardIndex = 0
            ∧ (studyAgainCards s).selectedChoice = ""
            ∧ (studyAgainCards s).showResult = false
            ∧ (studyAgainCards s).sessionStats
                = { correct := 0, incorrect := 0, total := s.againCards.length }
            ∧ (studyAgainCards s).againCards = []
            ∧ (studyAgainCards s).view = View.study) := by
  constructor
  · intro h
    simp [studyAgainCards, h]
  · intro h
    have hpos : s.againCards.length > 0 := List.length_pos.mpr h
    simp [studyAgainCards, hpos]

/-- Witness for C8: the initial state has no missed card; `missedTwoLimitOne`
has two and a stored limit of one. -/
theorem studyAgainCards_spec_witness :
    studyAgainCards initialState = initialState
      ∧ missedTwoLimitOne.cardLimit = 1
      ∧ (studyAgainCards missedTwoLimitOne).cards = [mathCard2, mathCard1]
      ∧ (studyAgainCards missedTwoLimitOne).sessionStats
          = { correct := 0, incorrect := 0, total := 2 }
      ∧ (studyAgainCards missedTwoLimitOne).view = View.study :=
  ⟨(studyAgainCards_spec initialState).1 (by decide), by decide,
   ((studyAgainCards_spec missedTwoLimitOne).2 (by decide)).1,
   ((studyAgainCards_spec missedTwoLimitOne).2 (by decide)).2.2.2.2.1,
   ((studyAgainCards_spec missedTwoLimitOne).2 (by decide)).2.2.2.2.2.2⟩

/-! ## Choosing after the result is shown (C10) -/

/-- C10. Once the result of the current card is shown, `selectChoice` changes
neither `selectedChoice` nor `sessionStats`, whatever choice is passed (it
returns the state it was given). -/
theorem selectChoice_after_submit (s : State) (c : String) (h : s.showResult = true) :
    (selectChoice s c).selectedChoice = s.selectedChoice
      ∧ (selectChoice s c).sessionStats = s.sessionStats
      ∧ selectChoice s c = s := by
  simp [selectChoice, h]

/-- Witness for C10: `6` is chosen after `7` was submitted on the first card. -/
theorem selectChoice_after_submit_witness :
    answeredFirst.showResult = true
      ∧ answeredFirst.selectedChoice = "7"
      ∧ (selectChoice answeredFirst "6").selectedChoice = answeredFirst.selectedChoice
      ∧ (selectChoice answeredFirst "6").sessionStats = answeredFirst.sessionStats :=
  ⟨by decide, by decide,
   (selectChoice_after_submit answeredFirst "6" (by decide)).1,
   (selectChoice_after_submit answeredFirst "6" (by decide)).2.1⟩

/-! ## Advancing before the result is shown (C6) -/

/-- C6, as stated, fails: in the fresh three-card session (view `study`, no
result shown) `nextCard` moves to the second card, and in the fresh one-card
session it switches the view to `complete`. -/
theorem nextCard_unrevealed_counterexample :
    mathSession.view = View.study ∧ mathSession.showResult = false
      ∧ (nextCard mathSession).currentCardIndex ≠ mathSession.currentCardIndex
      ∧ singleSession.view = View.study ∧ singleSession.showResult = false
      ∧ (nextCard singleSession).view ≠ singleSession.view := by
  decide

/-- C6, amended. While no result is shown the rendered view has no control
wired to `nextCard` (the submit button stands in its place), so no such event
can be issued through it. The handler itself does not look at `showResult`:
called all the same, it moves to the next card and clears the selection when
a later card exists, and switches the view to `complete` otherwise, leaving
`sessionStats` and `againCards` alone. -/
theorem nextCard_unrevealed (s : State) (h : s.showResult = false) :
    offered s Action.nextCard = false
      ∧ uiStep s Action.nextCard = none
      ∧ ((s.currentCardIndex : Int) < (s.cards.length : Int) - 1 →
          nextCard s = { s with currentCardIndex := s.currentCardIndex + 1
                                selectedChoice := ""
                                showResult := false })
      ∧ (¬ (s.currentCardIndex : Int) < (s.cards.length : Int) - 1 →
          nextCard s = { s with view := View.complete })
      ∧ (nextCard s).sessionStats = s.sessionStats
      ∧ (nextCard s).againCards = s.againCards := by
  have hoff : offered s Action.nextCard = false := by simp [offered, h]
  refine ⟨hoff, by simp [uiStep, hoff], fun hlt => by simp [nextCard, hlt],
    fun hge => by simp [nextCard, hge], ?_, ?_⟩ <;>
  · unfold nextCard
    split <;> rfl

/-- Witness for C6, amended, on the fresh three-card session. -/
theorem nextCard_unrevealed_witness :
    mathSession.showResult = false
      ∧ offered mathSession Action.nextCard = false
      ∧ uiStep mathSession Action.nextCard = none :=
  ⟨by decide, (nextCard_unrevealed mathSession (by decide)).1,
   (nextCard_unrevealed mathSession (by decide)).2.1⟩

/-! ## A failed fetch for a subject (C7) -/

theorem setupStudySession_failed (s : State) (subject : String) (o : FetchOutcome)
    (h : (fetchCardsBySubject s subject o).2 = []) :
    (setupStudySession s subject o).view = s.view
      ∧ (setupStudySession s subject o).error
          = some ("No cards found for subject: " ++ subject) := by
  cases o with
  | fulfilled success data message =>
    cases success <;> simp_all [setupStudySession, fetchCardsBySubject]
  | rejected responseMessage message =>
    simp [setupStudySession, fetchCardsBySubject]

/-- C7 on the code: selecting a subject whose fetch fails leaves the view
unchanged, and `fetchCardsBySubject` does store the server message or its
fallback, but `setupStudySession` then takes the empty array it got back for a
subject without cards and overwrites the error: the message left in `error` is
`No cards found for subject: ` followed by the subject, for a response with a
false success flag and for a rejected request alike. At the sample response
the server said `Database unavailable`. -/
theorem setupStudySession_failure_overwrites_message (s : State) (subject : String) :
    (∀ (data : List Card) (message : Option String),
        (fetchCardsBySubject s subject (FetchOutcome.fulfilled false data message)).1.error
            = some (orElse message "Failed to fetch cards for subject")
          ∧ (setupStudySession s subject (FetchOutcome.fulfilled false data message)).view
              = s.view
          ∧ (setupStudySession s subject (FetchOutcome.fulfilled false data message)).error
              = some ("No cards found for subject: " ++ subject))
      ∧ (∀ responseMessage message : Option String,
          (fetchCardsBySubject s subject (FetchOutcome.rejected responseMessage message)).1.error
              = some (orElse responseMessage
                  (orElse message "Failed to load cards for this subject"))
            ∧ (setupStudySession s subject (FetchOutcome.rejected responseMessage message)).view
                = s.view
            ∧ (setupStudySession s subject
                (FetchOutcome.rejected responseMessage message)).error
                = some ("No cards found for subject: " ++ subject))
      ∧ (fetchCardsBySubject mathHome "Math" failedResponse).1.error
          = some "Database unavailable"
      ∧ (setupStudySession mathHome "Math" failedResponse).view = View.home
      ∧ (setupStudySession mathHome "Math" failedResponse).error
          = some "No cards found for subject: Math" := by
  refine ⟨fun data message => ⟨rfl, ?_⟩, fun responseMessage message => ⟨rfl, ?_⟩,
    by decide, by decide, by decide⟩
  · exact setupStudySession_failed s subject _ rfl
  · exact setupStudySession_failed s subject _ rfl

/-! ## Invariants of the running component -/

theorem currentCard_lt (s : State) (h : (currentCard s).isSome = true) :
    s.currentCardIndex < s.cards.length := by
  unfold currentCard at h
  by_contra hge
  rw [List.getElem?_eq_none (by omega)] at h
  simp at h

theorem uiStep_eq (s t : State) (a : Action) (h : uiStep s a = some t) :
    offered s a = true ∧ handle s a = some t := by
  unfold uiStep at h
  split at h
  · exact ⟨by assumption, h⟩
  · cases h

theorem submitAnswer_effect (s t : State) (hsel : s.selectedChoice ≠ "")
    (h : submitAnswer s = some t) :
    t.showResult = true ∧ t.view = s.view ∧ t.cards = s.cards
      ∧ t.currentCardIndex = s.currentCardIndex
      ∧ t.sessionStats.total = s.sessionStats.total
      ∧ t.sessionStats.correct + t.sessionStats.incorrect
          = s.sessionStats.correct + s.sessionStats.incorrect + 1 := by
  unfold submitAnswer at h
  rw [if_neg hsel] at h
  split at h
  · cases h
  · split at h
    · cases h
      simp
      omega
    · split at h <;>
      · cases h
        simp
        omega

theorem submitAnswer_offered (s t : State) (hoff : offered s Action.submitAnswer = true)
    (h : submitAnswer s = some t) :
    t.showResult = true ∧ t.view = s.view ∧ t.cards = s.cards
      ∧ t.currentCardIndex = s.currentCardIndex
      ∧ t.sessionStats.total = s.sessionStats.total
      ∧ t.sessionStats.correct + t.sessionStats.incorrect
          = s.sessionStats.correct + s.sessionStats.incorrect + 1 := by
  simp only [offered, Bool.and_eq_true, bne_iff_ne, ne_eq] at hoff
  exact submitAnswer_effect s t hoff.2 h

theorem uiStep_sessionInv (s t : State) (a : Action) (h : uiStep s a = some t)
    (hinv : SessionInv s) : SessionInv t := by
  obtain ⟨hoff, hh⟩ := uiStep_eq s t a h
  obtain ⟨h1, h2, h3, h4⟩ := hinv
  cases a with
  | fetchAllCards o =>
    simp only [handle, Option.some.injEq] at hh
    subst hh
    cases o with
    | fulfilled success data message =>
      cases success <;> exact ⟨h1, h2, h3, h4⟩
    | rejected responseMessage message => exact ⟨h1, h2, h3, h4⟩
  | setupStudySession subject o =>
    simp only [handle, Option.some.injEq] at hh
    simp only [offered, Bool.and_eq_true, beq_iff_eq] at hoff
    have hv : s.view = View.home := hoff.1.1.1
    subst hh
    unfold SessionInv setupStudySession
    cases o with
    | fulfilled success data message =>
      cases success <;> simp only [fetchCardsBySubject] <;> split <;>
        simp_all
    | rejected responseMessage message =>
      simp only [fetchCardsBySubject]
      split <;> simp_all
  | goBackToHome =>
    simp only [handle, Option.some.injEq] at hh
    subst hh
    exact ⟨h1, h2, h3, by simp [goBackToHome]⟩
  | limitOption option =>
    simp only [handle, Option.some.injEq] at hh
    subst hh
    exact ⟨h1, h2, h3, h4⟩
  | limitAll =>
    simp only [handle, Option.some.injEq] at hh
    subst hh
    exact ⟨h1, h2, h3, h4⟩
  | customLimit text =>
    simp only [handle, Option.some.injEq] at hh
    subst hh
    exact ⟨h1, h2, h3, h4⟩
  | startStudySession shuffled =>
    simp only [handle, Option.some.injEq] at hh
    subst hh
    unfold startStudySession
    split
    · exact ⟨h1, h2, h3, h4⟩
    · simp [SessionInv]
  | selectChoice choice =>
    simp only [handle, Option.some.injEq] at hh
    subst hh
    unfold selectChoice
    split <;> exact ⟨h1, h2, h3, h4⟩
  | submitAnswer =>
    simp only [handle] at hh
    obtain ⟨g1, g2, g3, g4, g5, g6⟩ := submitAnswer_offered s t hoff hh
    simp only [offered, Bool.and_eq_true, beq_iff_eq, Bool.not_eq_true', bne_iff_ne] at hoff
    obtain ⟨⟨⟨hv, hcur⟩, hshow⟩, _⟩ := hoff
    have hlt := currentCard_lt s hcur
    simp only [hshow, Bool.false_eq_true, if_false, Nat.add_zero] at h2
    refine ⟨by rw [g5, g3, h1], ?_, ?_, ?_⟩
    · rw [g6, g4, g1, if_pos rfl, h2]
    · rw [g4, g3, g1, if_pos rfl]
      omega
    · intro hc
      rw [g2, hv] at hc
      cases hc
  | nextCard =>
    simp only [handle, Option.some.injEq] at hh
    simp only [offered, Bool.and_eq_true, beq_iff_eq] at hoff
    obtain ⟨⟨hv, hcur⟩, hshow⟩ := hoff
    have hlt := currentCard_lt s hcur
    simp only [hshow, if_true] at h2 h3
    subst hh
    unfold nextCard
    split
    · refine ⟨h1, ?_, ?_, ?_⟩
      · simp
        omega
      · simp
        omega
      · intro hc
        simp [hv] at hc
    · refine ⟨h1, ?_, ?_, ?_⟩
      · simp [hshow]
        omega
      · simp [hshow]
        omega
      · intro _
        refine ⟨?_, hshow⟩
        show s.currentCardIndex + 1 = s.cards.length
        omega
  | studyAgainCards =>
    simp only [handle, Option.some.injEq] at hh
    subst hh
    unfold studyAgainCards
    split
    · simp [SessionInv]
    · exact ⟨h1, h2, h3, h4⟩
  | restartSession shuffled =>
    simp only [handle, Option.some.injEq] at hh
    subst hh
    unfold restartSession startStudySession
    split
    · exact ⟨h1, h2, h3, h4⟩
    · simp [SessionInv]
  | goHome o =>
    simp only [handle, Option.some.injEq] at hh
    subst hh
    unfold goHome
    cases o with
    | fulfilled success data message =>
      cases success <;> simp [SessionInv, fetchAllCards]
    | rejected responseMessage message => simp [SessionInv, fetchAllCards]

theorem reachable_sessionInv (s : State) (h : Reachable s) : SessionInv s := by
  induction h with
  | init => simp [SessionInv, initialState]
  | step a _ hstep ih => exact uiStep_sessionInv _ _ a hstep ih

theorem reachable_of_runUI (s t : State) (events : List Action) (hs : Reachable s)
    (h : runUI s events = some t) : Reachable t := by
  induction events generalizing s with
  | nil =>
    simp only [runUI, Option.some.injEq] at h
    exact h ▸ hs
  | cons a rest ih =>
    simp only [runUI] at h
    cases hstep : uiStep s a with
    | none => simp [hstep] at h
    | some u =>
      simp only [hstep, Option.some_bind] at h
      exact ih u (Reachable.step a hs hstep) h

theorem uiStep_limitInv (s t : State) (a : Action) (h : uiStep s a = some t)
    (hinv : LimitInv s) : LimitInv t := by
  obtain ⟨hoff, hh⟩ := uiStep_eq s t a h
  obtain ⟨h1, h2⟩ := hinv
  cases a with
  | fetchAllCards o =>
    simp only [handle, Option.some.injEq] at hh
    subst hh
    cases o with
    | fulfilled success data message => cases success <;> exact ⟨h1, h2⟩
    | rejected responseMessage message => exact ⟨h1, h2⟩
  | setupStudySession subject o =>
    simp only [handle, Option.some.injEq] at hh
    subst hh
    have hfail : ∀ e : Option String,
        LimitInv { s with loading := false, error := e } := fun _ => ⟨h1, h2⟩
    unfold setupStudySession
    cases o with
    | fulfilled success data message =>
      cases success
      · simp only [fetchCardsBySubject, List.length_nil, if_true]
        exact ⟨h1, h2⟩
      · simp only [fetchCardsBySubject]
        split
        · exact ⟨h1, h2⟩
        · rename_i hlen
          have hpos : 1 ≤ (data.length : Int) := by omega
          refine ⟨le_min (by norm_num) hpos, fun _ => ⟨?_, min_le_right _ _⟩⟩
          intro hnil
          exact hlen (by simp [show data = [] from hnil])
    | rejected responseMessage message =>
      simp only [fetchCardsBySubject, List.length_nil, if_true]
      exact ⟨h1, h2⟩
  | goBackToHome =>
    simp only [handle, Option.some.injEq] at hh
    subst hh
    exact ⟨by simp [goBackToHome], by simp [goBackToHome]⟩
  | limitOption option =>
    simp only [handle, Option.some.injEq] at hh
    simp only [offered, Bool.and_eq_true, beq_iff_eq, List.contains_eq_any_beq,
      List.any_eq_true, offeredLimitOptions, limitOptions, List.mem_filter,
      decide_eq_true_eq] at hoff
    obtain ⟨hv, o, ⟨hmem, hle⟩, ho⟩ := hoff
    simp only [List.mem_cons, List.mem_singleton, List.not_mem_nil, or_false] at hmem
    have ho2 : option = o := by simpa using ho
    subst ho2
    subst hh
    refine ⟨?_, fun _ => ⟨(h2 hv).1, ?_⟩⟩
    · show (1 : Int) ≤ (option : Int)
      omega
    · show (option : Int) ≤ (s.availableCards.length : Int)
      omega
  | limitAll =>
    simp only [handle, Option.some.injEq] at hh
    simp only [offered, Bool.and_eq_true, beq_iff_eq] at hoff
    have hne := (h2 hoff.1).1
    have hpos : 0 < s.availableCards.length := List.length_pos.mpr hne
    subst hh
    refine ⟨?_, fun _ => ⟨hne, le_refl _⟩⟩
    show (1 : Int) ≤ (s.availableCards.length : Int)
    omega
  | customLimit text =>
    simp only [handle, Option.some.injEq] at hh
    simp only [offered, beq_iff_eq] at hoff
    have hne := (h2 hoff).1
    have hpos : 1 ≤ s.availableCards.length := List.length_pos.mpr hne
    subst hh
    have hc := orOne_clamp (parseInt text) s.availableCards.length hpos
    exact ⟨hc.1, fun _ => ⟨hne, hc.2⟩⟩
  | startStudySession shuffled =>
    simp only [handle, Option.some.injEq] at hh
    subst hh
    unfold startStudySession
    split
    · exact ⟨h1, h2⟩
    · exact ⟨h1, fun hc => by simp at hc⟩
  | selectChoice choice =>
    simp only [handle, Option.some.injEq] at hh
    subst hh
    unfold selectChoice
    split <;> exact ⟨h1, h2⟩
  | submitAnswer =>
    simp only [handle] at hh
    unfold submitAnswer at hh
    split at hh
    · cases hh
      exact ⟨h1, h2⟩
    · split at hh
      · cases hh
      · split at hh
        · cases hh
          exact ⟨h1, h2⟩
        · split at hh <;>
          · cases hh
            exact ⟨h1, h2⟩
  | nextCard =>
    simp only [handle, Option.some.injEq] at hh
    simp only [offered, Bool.and_eq_true, beq_iff_eq] at hoff
    have hv : s.view = View.study := hoff.1.1
    subst hh
    unfold nextCard
    split
    · exact ⟨h1, h2⟩
    · exact ⟨h1, fun hc => by simp at hc⟩
  | studyAgainCards =>
    simp only [handle, Option.some.injEq] at hh
    subst hh
    unfold studyAgainCards
    split
    · exact ⟨h1, fun hc => by simp at hc⟩
    · exact ⟨h1, h2⟩
  | restartSession shuffled =>
    simp only [handle, Option.some.injEq] at hh
    subst hh
    unfold restartSession startStudySession
    split
    · exact ⟨h1, h2⟩
    · exact ⟨h1, fun hc => by simp at hc⟩
  | goHome o =>
    simp only [handle, Option.some.injEq] at hh
    subst hh
    unfold goHome
    cases o with
    | fulfilled success data message =>
      cases success <;> simp [LimitInv, fetchAllCards]
    | rejected responseMessage message => simp [LimitInv, fetchAllCards]

theorem reachable_limitInv (s : State) (h : Reachable s) : LimitInv s := by
  induction h with
  | init => simp [LimitInv, initialState]
  | step a _ hstep ih => exact uiStep_limitInv _ _ a hstep ih

theorem runUI_runCalls (s t : State) (events : List Action)
    (h : runUI s events = some t) : runCalls s events = some t := by
  induction events generalizing s with
  | nil => exact h
  | cons a rest ih =>
    simp only [runUI] at h
    cases hstep : uiStep s a with
    | none => simp [hstep] at h
    | some u =>
      simp only [hstep, Option.some_bind] at h
      simp only [runCalls, (uiStep_eq s u a hstep).2, Option.some_bind]
      exact ih u h

theorem reachable_complete_total_pos (s : State) (h : Reachable s)
    (hv : s.view = View.complete) : 1 ≤ s.sessionStats.total := by
  obtain ⟨h1, _, _, h4⟩ := reachable_sessionInv s h
  have := (h4 hv).1
  omega

/-! ## Completion (C5) -/

/-- C5. In every state the running component can reach, being on the
completion screen means every session card was answered: `correct +
incorrect = total`. In particular this holds in the state `nextCard` produces
at the moment it switches a reachable state to `complete`. -/
theorem complete_stats_total (s : State) (h : Reachable s) :
    (s.view = View.complete →
        s.sessionStats.correct + s.sessionStats.incorrect = s.sessionStats.total)
      ∧ (∀ t : State, uiStep s Action.nextCard = some t → t.view = View.complete →
          t = nextCard s
            ∧ t.sessionStats.correct + t.sessionStats.incorrect = t.sessionStats.total) := by
  have key : ∀ u : State, SessionInv u → u.view = View.complete →
      u.sessionStats.correct + u.sessionStats.incorrect = u.sessionStats.total := by
    intro u hu hv
    obtain ⟨h1, h2, _, h4⟩ := hu
    obtain ⟨hidx, hshow⟩ := h4 hv
    rw [h1, h2, hshow, if_pos rfl, hidx]
  refine ⟨key s (reachable_sessionInv s h), fun t ht hv => ⟨?_, ?_⟩⟩
  · have := (uiStep_eq s t _ ht).2
    simp only [handle, Option.some.injEq] at this
    exact this.symm
  · exact key t (uiStep_sessionInv s t _ ht (reachable_sessionInv s h)) hv

/-- Witness for C5: `missedTwo` is reached by `missedTwoEvents`, whose last
event is the `nextCard` that completes the session from `lastAnswered`. -/
theorem complete_stats_total_witness :
    missedTwo.view = View.complete
      ∧ missedTwo.sessionStats = { correct := 1, incorrect := 2, total := 3 }
      ∧ missedTwo.sessionStats.correct + missedTwo.sessionStats.incorrect
          = missedTwo.sessionStats.total
      ∧ uiStep lastAnswered Action.nextCard = some missedTwo
      ∧ (missedTwo = nextCard lastAnswered
          ∧ missedTwo.sessionStats.correct + missedTwo.sessionStats.incorrect
              = missedTwo.sessionStats.total) :=
  ⟨by decide, by decide,
   (complete_stats_total missedTwo
      (reachable_of_runUI initialState missedTwo missedTwoEvents Reachable.init
        (by decide))).1 (by decide),
   by decide,
   (complete_stats_total lastAnswered
      (reachable_of_runUI initialState lastAnswered missedTwoEvents.dropLast Reachable.init
        (by decide))).2 missedTwo (by decide) (by decide)⟩

/-! ## The missed cards (C2) -/

theorem distinctIds_append_new (cs : List Card) (c : Card) (h : distinctIds cs)
    (hnew : (cs.find? fun card => card._id == c._id).isNone = true) :
    distinctIds (cs ++ [c]) := by
  unfold distinctIds at *
  rw [List.map_append, List.map_singleton]
  have hnone : (cs.find? fun card => card._id == c._id) = none := by
    simpa using hnew
  rw [List.find?_eq_none] at hnone
  refine List.Nodup.append h (List.nodup_singleton _) ?_
  intro i hi hi2
  rw [List.mem_singleton] at hi2
  subst hi2
  obtain ⟨card, hcard, hid⟩ := List.mem_map.mp hi
  exact hnone card hcard (by simp [hid])

theorem handle_againCards_distinct (s t : State) (a : Action) (h : handle s a = some t)
    (hd : distinctIds s.againCards) : distinctIds t.againCards := by
  have hnil : distinctIds [] := by simp [distinctIds]
  cases a with
  | fetchAllCards o =>
    simp only [handle, Option.some.injEq] at h
    subst h
    cases o with
    | fulfilled success data message => cases success <;> exact hd
    | rejected responseMessage message => exact hd
  | setupStudySession subject o =>
    simp only [handle, Option.some.injEq] at h
    subst h
    unfold setupStudySession
    cases o with
    | fulfilled success data message =>
      cases success <;> simp only [fetchCardsBySubject] <;> split <;> exact hd
    | rejected responseMessage message =>
      simp only [fetchCardsBySubject]
      split <;> exact hd
  | goBackToHome =>
    simp only [handle, Option.some.injEq] at h
    subst h
    exact hd
  | limitOption option =>
    simp only [handle, Option.some.injEq] at h
    subst h
    exact hd
  | limitAll =>
    simp only [handle, Option.some.injEq] at h
    subst h
    exact hd
  | customLimit text =>
    simp only [handle, Option.some.injEq] at h
    subst h
    exact hd
  | startStudySession shuffled =>
    simp only [handle, Option.some.injEq] at h
    subst h
    unfold startStudySession
    split
    · exact hd
    · exact hnil
  | selectChoice choice =>
    simp only [handle, Option.some.injEq] at h
    subst h
    unfold selectChoice
    split <;> exact hd
  | submitAnswer =>
    simp only [handle] at h
    unfold submitAnswer at h
    split at h
    · cases h
      exact hd
    · split at h
      · cases h
      · split at h
        · cases h
          exact hd
        · split at h
          · rename_i hnew
            cases h
            exact distinctIds_append_new _ _ hd hnew
          · cases h
            exact hd
  | nextCard =>
    simp only [handle, Option.some.injEq] at h
    subst h
    unfold nextCard
    split <;> exact hd
  | studyAgainCards =>
    simp only [handle, Option.some.injEq] at h
    subst h
    unfold studyAgainCards
    split
    · exact hnil
    · exact hd
  | restartSession shuffled =>
    simp only [handle, Option.some.injEq] at h
    subst h
    unfold restartSession startStudySession
    split
    · exact hd
    · exact hnil
  | goHome o =>
    simp only [handle, Option.some.injEq] at h
    subst h
    unfold goHome
    cases o with
    | fulfilled success data message => cases success <;> exact hnil
    | rejected responseMessage message => exact hnil

theorem runCalls_againCards_distinct (s t : State) (calls : List Action)
    (h : runCalls s calls = some t) (hd : distinctIds s.againCards) :
    distinctIds t.againCards := by
  induction calls generalizing s with
  | nil =>
    simp only [runCalls, Option.some.injEq] at h
    exact h ▸ hd
  | cons a rest ih =>
    simp only [runCalls] at h
    cases hstep : handle s a with
    | none => simp [hstep] at h
    | some u =>
      simp only [hstep, Option.some_bind] at h
      exact ih u h (handle_againCards_distinct s u a hstep hd)

theorem reachable_againCards_distinct (s : State) (h : Reachable s) :
    distinctIds s.againCards := by
  induction h with
  | init => simp [distinctIds, initialState]
  | step a _ hstep ih =>
    exact handle_againCards_distinct _ _ a (uiStep_eq _ _ a hstep).2 ih

/-- C2. No two elements of `againCards` share an `_id`, in every state the
running component can reach through the events its view offers, and also in
every state obtained from the initial one by calling the handlers directly, in
any order and with any arguments. -/
theorem againCards_distinct (s : State)
    (h : Reachable s ∨ ∃ calls : List Action, runCalls initialState calls = some s) :
    distinctIds s.againCards := by
  rcases h with h | ⟨calls, h⟩
  · exact reachable_againCards_distinct s h
  · exact runCalls_againCards_distinct initialState s calls h
      (by simp [distinctIds, initialState])

/-- Witness for C2: `missedTwo`, reached with two missed cards, and
`submittedTwice`, where the same card was answered incorrectly twice. -/
theorem againCards_distinct_witness :
    missedTwo.againCards = [mathCard2, mathCard1] ∧ distinctIds missedTwo.againCards
      ∧ submittedTwice.sessionStats.incorrect = 2
      ∧ submittedTwice.againCards = [mathCard2] ∧ distinctIds submittedTwice.againCards :=
  ⟨by decide,
   againCards_distinct missedTwo
     (Or.inl (reachable_of_runUI initialState missedTwo missedTwoEvents Reachable.init
       (by decide))),
   by decide, by decide,
   againCards_distinct submittedTwice (Or.inr ⟨submitTwiceCalls, by decide⟩)⟩

/-! ## Counting answers (C1) -/

/-- C1, as stated, fails for handler calls made directly. In the one-card
session, selecting `4` and calling `submitAnswer` twice gives `correct +
incorrect = 2` with `total = 1`; and one `submitAnswer` call with nothing
selected leaves `correct + incorrect = 0`. -/
theorem submit_calls_counterexample :
    singleSetup.availableCards ≠ []
      ∧ singleSession = startStudySession singleSetup [mathCard1]
      ∧ (runCalls singleSession
            [Action.selectChoice "4", Action.submitAnswer, Action.submitAnswer]).map
          (fun t => (t.sessionStats.correct + t.sessionStats.incorrect, t.sessionStats.total))
          = some (2, 1)
      ∧ submitCount [Action.selectChoice "4", Action.submitAnswer, Action.submitAnswer] = 2
      ∧ (runCalls singleSession [Action.submitAnswer]).map
          (fun t => t.sessionStats.correct + t.sessionStats.incorrect) = some 0
      ∧ submitCount [Action.submitAnswer] = 1 := by
  decide

theorem fresh_session_inv (s s0 : State) (shuffled : List Card)
    (h : (s.availableCards ≠ [] ∧ s0 = startStudySession s shuffled)
      ∨ (s.againCards ≠ [] ∧ s0 = studyAgainCards s)) :
    CountInv s0 ∧ s0.sessionStats.correct + s0.sessionStats.incorrect = 0 := by
  rcases h with ⟨hne, rfl⟩ | ⟨hne, rfl⟩
  · have hlen : ¬ s.availableCards.length = 0 := fun h => hne (List.length_eq_zero.mp h)
    simp [startStudySession, hlen, CountInv]
  · have hpos : s.againCards.length > 0 := List.length_pos.mpr hne
    simp [studyAgainCards, hpos, CountInv]

theorem sessionCall_count (s t : State) (a : Action) (h : sessionCall s a = some t)
    (ha : isSessionAction a = true) (hinv : CountInv s) :
    CountInv t
      ∧ t.sessionStats.correct + t.sessionStats.incorrect
          = s.sessionStats.correct + s.sessionStats.incorrect + submitCount [a] := by
  obtain ⟨h1, h2, h3⟩ := hinv
  cases a with
  | selectChoice choice =>
    simp only [sessionCall, handle, Option.some.injEq] at h
    subst h
    unfold selectChoice
    split
    · exact ⟨⟨h1, h2, h3⟩, by simp [submitCount]⟩
    · exact ⟨⟨h1, h2, h3⟩, by simp [submitCount]⟩
  | submitAnswer =>
    simp only [sessionCall] at h
    split at h
    · rename_i hready
      simp only [submitReady, Bool.and_eq_true, Bool.not_eq_true', bne_iff_ne, ne_eq] at hready
      obtain ⟨⟨hcur, hshow⟩, hsel⟩ := hready
      have hlt := currentCard_lt s hcur
      obtain ⟨g1, _, g3, g4, g5, g6⟩ := submitAnswer_effect s t hsel h
      simp only [hshow, Bool.false_eq_true, if_false, Nat.add_zero] at h2
      refine ⟨⟨by rw [g5, g3, h1], ?_, ?_⟩, by simpa [submitCount] using g6⟩
      · rw [g6, g4, g1, if_pos rfl]
        omega
      · rw [g4, g3, g1, if_pos rfl]
        omega
    · cases h
  | nextCard =>
    simp only [sessionCall, handle, Option.some.injEq] at h
    subst h
    unfold nextCard
    split
    · refine ⟨⟨h1, ?_, ?_⟩, by simp [submitCount]⟩
      · have hb : (if s.showResult = true then 1 else 0) ≤ 1 := by split <;> omega
        simp
        omega
      · simp
        omega
    · exact ⟨⟨h1, h2, h3⟩, by simp [submitCount]⟩
  | _ => simp [isSessionAction] at ha

theorem submitCount_cons (a : Action) (rest : List Action) :
    submitCount (a :: rest) = submitCount [a] + submitCount rest := by
  cases a <;> simp [submitCount, Nat.add_comm]

theorem runSession_count (s t : State) (calls : List Action)
    (hcalls : ∀ a ∈ calls, isSessionAction a = true)
    (hrun : runSession s calls = some t) (hinv : CountInv s) :
    CountInv t
      ∧ t.sessionStats.correct + t.sessionStats.incorrect
          = s.sessionStats.correct + s.sessionStats.incorrect + submitCount calls := by
  induction calls generalizing s with
  | nil =>
    simp only [runSession, Option.some.injEq] at hrun
    subst hrun
    exact ⟨hinv, by simp [submitCount]⟩
  | cons a rest ih =>
    simp only [runSession] at hrun
    cases hstep : sessionCall s a with
    | none => simp [hstep] at hrun
    | some u =>
      simp only [hstep, Option.some_bind] at hrun
      have ha := hcalls a (List.mem_cons_self _ _)
      have hrest : ∀ b ∈ rest, isSessionAction b = true :=
        fun b hb => hcalls b (List.mem_cons_of_mem _ hb)
      obtain ⟨hu, hcu⟩ := sessionCall_count s u a hstep ha hinv
      obtain ⟨hi, hc⟩ := ih u hrest hrun hu
      refine ⟨hi, ?_⟩
      rw [hc, hcu, submitCount_cons a rest]
      omega

theorem runUI_runSession (s t : State) (events : List Action)
    (h : runUI s events = some t) : runSession s events = some t := by
  induction events generalizing s with
  | nil => exact h
  | cons a rest ih =>
    simp only [runUI] at h
    cases hstep : uiStep s a with
    | none => simp [hstep] at h
    | some u =>
      simp only [hstep, Option.some_bind] at h
      obtain ⟨hoff, hh⟩ := uiStep_eq s u a hstep
      have hcall : sessionCall s a = some u := by
        cases a with
        | submitAnswer =>
          have hready : submitReady s = true := by
            simp only [offered, Bool.and_eq_true] at hoff
            simp only [submitReady, Bool.and_eq_true]
            exact ⟨⟨hoff.1.1.2, hoff.1.2⟩, hoff.2⟩
          simp only [sessionCall, hready, if_true]
          exact hh
        | _ => exact hh
      simp only [runSession, hcall, Option.some_bind]
      exact ih u h

/-- C1, amended. Take a session produced by `startStudySession` (from a state
with available cards) or by `studyAgainCards` (from a state with missed
cards), and any sequence of direct `selectChoice`, `submitAnswer` and
`nextCard` calls in which every `submitAnswer` call is made while a current
card exists, a choice is selected and the result is not shown yet;
`selectChoice` and `nextCard` are called without any condition. Then `correct +
incorrect` equals the number of `submitAnswer` calls and is at most `total`. -/
theorem session_stats_count (s s0 t : State) (shuffled : List Card) (calls : List Action)
    (hsession : (s.availableCards ≠ [] ∧ s0 = startStudySession s shuffled)
      ∨ (s.againCards ≠ [] ∧ s0 = studyAgainCards s))
    (hcalls : ∀ a ∈ calls, isSessionAction a = true)
    (hrun : runSession s0 calls = some t) :
    t.sessionStats.correct + t.sessionStats.incorrect = submitCount calls
      ∧ t.sessionStats.correct + t.sessionStats.incorrect ≤ t.sessionStats.total := by
  obtain ⟨hinv, hzero⟩ := fresh_session_inv s s0 shuffled hsession
  obtain ⟨⟨h1, h2, h3⟩, hc⟩ := runSession_count s0 t calls hcalls hrun hinv
  constructor
  · omega
  · omega

/-- Witness for C1, amended: on the three-card session the first card is
skipped by a direct `nextCard`, a choice that is not listed is submitted on
the second card and the right answer on the third: two submissions out of a
total of three. The nine events of `missedTwoSessionEvents`, all offered by
the view, are such a sequence as well. -/
theorem session_stats_count_witness :
    runSession mathSession skippingCalls = some skippedFirst
      ∧ runUI mathSession skippingCalls = none
      ∧ submitCount skippingCalls = 2
      ∧ skippedFirst.sessionStats = { correct := 1, incorrect := 1, total := 3 }
      ∧ (skippedFirst.sessionStats.correct + skippedFirst.sessionStats.incorrect
            = submitCount skippingCalls
          ∧ skippedFirst.sessionStats.correct + skippedFirst.sessionStats.incorrect
            ≤ skippedFirst.sessionStats.total)
      ∧ (missedTwo.sessionStats.correct + missedTwo.sessionStats.incorrect
            = submitCount missedTwoSessionEvents
          ∧ missedTwo.sessionStats.correct + missedTwo.sessionStats.incorrect
            ≤ missedTwo.sessionStats.total) :=
  ⟨by decide, by decide, by decide, by decide,
   session_stats_count mathSetup mathSession skippedFirst [mathCard2, mathCard1, mathCard3]
     skippingCalls (Or.inl ⟨by decide, by decide⟩) (by decide) (by decide),
   session_stats_count mathSetup mathSession missedTwo [mathCard2, mathCard1, mathCard3]
     missedTwoSessionEvents (Or.inl ⟨by decide, by decide⟩) (by decide)
     (runUI_runSession mathSession missedTwo missedTwoSessionEvents (by decide))⟩

/-! ## The three-card scenario (C4) -/

theorem accuracy_two_of_three :
    accuracy { correct := 2, incorrect := 1, total := 3 } = 67 := by
  unfold accuracy
  rw [Int.floor_eq_iff]
  constructor <;> norm_num

/-- C4. Take a session started with `cardLimit = 3` whose shuffled order
begins with the cards `c1`, `c2`, `c3`. If the user selects and submits the
answer of `c1`, then a choice `w` other than the answer of `c2`, then the
answer of `c3`, calling `nextCard` after each submission, the run ends in the
view `complete` with `correct = 2`, `incorrect = 1`, `total = 3`, `againCards`
holding `c2` alone, and an accuracy of 67. A submission takes a selection
that is not the empty string (the submit button is disabled and the handler
returns at once otherwise), hence the three hypotheses on the choices. When
the choices are moreover among those listed on their cards, every one of the
nine events is offered by the rendered view. -/
theorem three_card_scenario (s : State) (shuffled rest : List Card) (c1 c2 c3 : Card)
    (w : String) (hne : s.availableCards ≠ []) (hlim : s.cardLimit = 3)
    (hsh : shuffled = c1 :: c2 :: c3 :: rest)
    (h1 : c1.answer ≠ "") (hw : w ≠ "") (hw2 : w ≠ c2.answer) (h3 : c3.answer ≠ "") :
    ∃ t : State,
      runCalls (startStudySession s shuffled) (scenarioEvents c1 c3 w) = some t
        ∧ t.view = View.complete
        ∧ t.sessionStats = { correct := 2, incorrect := 1, total := 3 }
        ∧ t.againCards = [c2]
        ∧ accuracy t.sessionStats = 67
        ∧ (c1.answer ∈ c1.choices → w ∈ c2.choices → c3.answer ∈ c3.choices →
            runUI (startStudySession s shuffled) (scenarioEvents c1 c3 w) = some t) := by
  have hlen : ¬ s.availableCards.length = 0 := fun h => hne (List.length_eq_zero.mp h)
  subst hsh
  have hstart : startStudySession s (c1 :: c2 :: c3 :: rest)
      = { s with currentSubject := s.selectedSubject
                 cards := [c1, c2, c3]
                 currentCardIndex := 0
                 selectedChoice := ""
                 showResult := false
                 sessionStats := { correct := 0, incorrect := 0, total := 3 }
                 againCards := []
                 view := View.study } := by
    simp [startStudySession, hlen, sliceFromStart, hlim]
  rw [hstart]
  refine ⟨{ s with currentSubject := s.selectedSubject
                   cards := [c1, c2, c3]
                   currentCardIndex := 2
                   selectedChoice := c3.answer
                   showResult := true
                   sessionStats := { correct := 2, incorrect := 1, total := 3 }
                   againCards := [c2]
                   view := View.complete }, ?_, ?_, ?_, ?_, ?_, ?_⟩
  · simp [scenarioEvents, runCalls, handle, selectChoice, submitAnswer, nextCard, h1, hw, hw2, h3]
  · rfl
  · rfl
  · rfl
  · exact accuracy_two_of_three
  · intro m1 mw m3
    simp [scenarioEvents, runUI, uiStep, offered, currentCard, handle, selectChoice,
      submitAnswer, nextCard, h1, hw, hw2, h3, m1, mw, m3]

/-- Witness for C4: the three `Math` cards in the order 2, 1, 3, with the wrong
choice `3` on the second card shown (card 1). -/
theorem three_card_scenario_witness :
    mathSetup.availableCards ≠ [] ∧ mathSetup.cardLimit = 3
      ∧ ∃ t : State,
        runCalls (startStudySession mathSetup [mathCard2, mathCard1, mathCard3])
            (scenarioEvents mathCard2 mathCard3 "3") = some t
          ∧ t.view = View.complete
          ∧ t.sessionStats = { correct := 2, incorrect := 1, total := 3 }
          ∧ t.againCards = [mathCard1]
          ∧ accuracy t.sessionStats = 67
          ∧ (mathCard2.answer ∈ mathCard2.choices → "3" ∈ mathCard1.choices →
              mathCard3.answer ∈ mathCard3.choices →
              runUI (startStudySession mathSetup [mathCard2, mathCard1, mathCard3])
                (scenarioEvents mathCard2 mathCard3 "3") = some t) :=
  ⟨by decide, by decide,
   three_card_scenario mathSetup [mathCard2, mathCard1, mathCard3] [] mathCard2 mathCard1
     mathCard3 "3" (by decide) (by decide) rfl (by decide) (by decide) (by decide) (by decide)⟩

end App
